import Mathlib

/-!
Verification of the EPUB document-assembly engine of mark2epub
(src/src/mark2epub.py, the revision the test suite imports).

The Python code is shallowly embedded: pure helpers become Lean
functions, the loops of the generator become structurally recursive
functions over the publication model, and the process-terminating
error paths become explicit error values.  The iteration order of the
Python built-in set (used for the stylesheet collection) is
hash-randomized across runs, so it is modelled as an arbitrary
duplicate-free enumeration of the underlying set of elements.
-/

namespace Mark2Epub

/-! Decimal formatting: Python f-string "{index:05d}". -/

/-- Little-endian decimal digits of a natural number, computed with
explicit fuel so that the definition reduces in the kernel.
The empty list is returned for 0, matching the padding computation. -/
def natDigitsAux : Nat → Nat → List Nat
  | 0, _ => []
  | _ + 1, 0 => []
  | fuel + 1, n + 1 => (n + 1) % 10 :: natDigitsAux fuel ((n + 1) / 10)

/-- Little-endian decimal digits of a natural number. -/
def natDigits (n : Nat) : List Nat :=
  natDigitsAux n n

/-- Value of a little-endian decimal digit list. -/
def unDigits (l : List Nat) : Nat :=
  l.foldr (fun d r => d + 10 * r) 0

theorem natDigitsAux_spec (fuel : Nat) :
    ∀ n, n ≤ fuel →
      unDigits (natDigitsAux fuel n) = n ∧ ∀ d ∈ natDigitsAux fuel n, d < 10 := by
  induction fuel with
  | zero =>
    intro n hn
    interval_cases n
    exact ⟨rfl, by intro d hd; cases hd⟩
  | succ fuel ih =>
    intro n hn
    match n with
    | 0 => exact ⟨rfl, by intro d hd; cases hd⟩
    | m + 1 =>
      have hdiv : (m + 1) / 10 ≤ fuel := by
        have h1 : (m + 1) / 10 < m + 1 := Nat.div_lt_self (Nat.succ_pos m) (by norm_num)
        omega
      obtain ⟨h1, h2⟩ := ih ((m + 1) / 10) hdiv
      constructor
      · show (m + 1) % 10 + 10 * unDigits (natDigitsAux fuel ((m + 1) / 10)) = m + 1
        rw [h1]
        omega
      · intro d hd
        simp only [natDigitsAux, List.mem_cons] at hd
        rcases hd with h | h
        · subst h
          exact Nat.mod_lt _ (by norm_num)
        · exact h2 d h

theorem unDigits_natDigits (n : Nat) : unDigits (natDigits n) = n :=
  (natDigitsAux_spec n n le_rfl).1

theorem natDigits_lt_ten (n : Nat) : ∀ d ∈ natDigits n, d < 10 :=
  (natDigitsAux_spec n n le_rfl).2

/-- Python format "{n:05d}": decimal representation of a natural number
left-padded with zeros to at least five characters. -/
def pad5 (n : Nat) : String :=
  let ds := ((natDigits n).reverse).map Nat.digitChar
  String.mk (List.replicate (5 - ds.length) '0' ++ ds)

/-- Numeric value of a decimal digit character. -/
def unDigitChar (c : Char) : Nat := c.toNat - 48

theorem unDigitChar_digitChar {d : Nat} (h : d < 10) :
    unDigitChar (Nat.digitChar d) = d := by
  interval_cases d <;> rfl

/-- Left-to-right decimal decoding of a character list. -/
def decodeChars (l : List Char) : Nat :=
  l.foldl (fun acc c => 10 * acc + unDigitChar c) 0

theorem foldl_decode_zeros (k : Nat) (acc : Nat) :
    List.foldl (fun acc c => 10 * acc + unDigitChar c) acc (List.replicate k '0') =
      acc * 10 ^ k := by
  induction k generalizing acc with
  | zero => simp
  | succ k ih =>
    rw [List.replicate_succ, List.foldl_cons, ih]
    have : unDigitChar '0' = 0 := rfl
    rw [this]
    ring

theorem foldl_decode_digits (L : List Nat) (h : ∀ d ∈ L, d < 10) (acc : Nat) :
    List.foldl (fun acc c => 10 * acc + unDigitChar c) acc
      ((L.reverse).map Nat.digitChar) = acc * 10 ^ L.length + unDigits L := by
  induction L generalizing acc with
  | nil => simp [unDigits]
  | cons d L ih =>
    have hd : d < 10 := h d (List.mem_cons_self d L)
    have hL : ∀ x ∈ L, x < 10 := fun x hx => h x (List.mem_cons_of_mem d hx)
    rw [List.reverse_cons, List.map_append, List.foldl_append, ih hL acc]
    simp only [List.map_cons, List.map_nil, List.foldl_cons, List.foldl_nil]
    rw [unDigitChar_digitChar hd]
    show 10 * (acc * 10 ^ L.length + unDigits L) + d =
      acc * 10 ^ (L.length + 1) + unDigits (d :: L)
    show 10 * (acc * 10 ^ L.length + unDigits L) + d =
      acc * 10 ^ (L.length + 1) + (d + 10 * unDigits L)
    ring

theorem decode_pad5 (n : Nat) : decodeChars (pad5 n).data = n := by
  show List.foldl (fun acc c => 10 * acc + unDigitChar c) 0
    (List.replicate (5 - ((natDigits n).reverse.map Nat.digitChar).length) '0' ++
      (natDigits n).reverse.map Nat.digitChar) = n
  rw [List.foldl_append, foldl_decode_zeros,
    foldl_decode_digits (natDigits n) (natDigits_lt_ten n)]
  rw [unDigits_natDigits]
  simp

theorem pad5_injective : Function.Injective pad5 := by
  intro a b hab
  have : decodeChars (pad5 a).data = decodeChars (pad5 b).data := by rw [hab]
  rwa [decode_pad5, decode_pad5] at this

/-! String helpers. -/

theorem string_data_append (s t : String) : (s ++ t).data = s.data ++ t.data := rfl

theorem string_ne_of_data_ne {s t : String} (h : s.data ≠ t.data) : s ≠ t :=
  fun he => h (by rw [he])

/-- Injectivity of appending a fixed left part to the padded index. -/
theorem append_pad5_injective (p : String) :
    Function.Injective (fun i => p ++ pad5 i) := by
  intro a b hab
  apply pad5_injective
  apply String.ext
  have h2 : (p ++ pad5 a).data = (p ++ pad5 b).data := by
    simp only at hab
    rw [hab]
  rw [string_data_append, string_data_append] at h2
  exact List.append_cancel_left h2

theorem head_append_of_head {p : String} {c : Char}
    (h : p.data.head? = some c) (q : String) : (p ++ q).data.head? = some c := by
  rw [string_data_append]
  cases hp : p.data with
  | nil => rw [hp] at h; cases h
  | cons a l =>
    rw [hp] at h
    simp only [List.head?] at h
    simpa using h

theorem ne_of_head {a b : String} {c1 c2 : Char}
    (ha : a.data.head? = some c1) (hb : b.data.head? = some c2)
    (h : c1 ≠ c2) : a ≠ b := by
  intro he
  rw [he, hb] at ha
  exact h (Option.some_injective _ ha.symm)

/-! Path handling: os.path.basename and os.path.splitext (posix rules). -/

/-- Characters of the last path component (the part after the last slash),
as os.path.basename computes it. -/
def afterLastSep (l : List Char) : List Char :=
  (l.reverse.takeWhile (fun c => c ≠ '/')).reverse

/-- Python os.path.basename. -/
def pyBasename (name : String) : String :=
  String.mk (afterLastSep name.data)

/-- Split a character list at its last dot: returns the characters before
the last dot together with the characters from the last dot on, or none
when there is no dot. -/
def lastDotSplit : List Char → Option (List Char × List Char)
  | [] => none
  | c :: cs =>
    match lastDotSplit cs with
    | some (b, e) => some (c :: b, e)
    | none => if c = '.' then some ([], '.' :: cs) else none

/-- Extension as computed by os.path.splitext: the part of the last path
component from its last dot on, provided some character before that dot
in the component is not itself a dot (so dotfiles have no extension). -/
def pySplitextExt (name : String) : String :=
  let b := afterLastSep name.data
  match lastDotSplit b with
  | none => ""
  | some (lead, ext) => if lead.any (fun c => c ≠ '.') then String.mk ext else ""

/-- Stem of the last path component: splitext(basename(name))[0]. -/
def pyStem (name : String) : String :=
  let b := afterLastSep name.data
  match lastDotSplit b with
  | none => String.mk b
  | some (lead, _ext) =>
    if lead.any (fun c => c ≠ '.') then String.mk lead else String.mk b

example : pySplitextExt "example/toto.png" = ".png" := by decide
example : pySplitextExt "example/toto.gif.jpeg" = ".jpeg" := by decide
example : pySplitextExt "example.example/toto" = "" := by decide
example : pySplitextExt ".bashrc" = "" := by decide
example : pyStem "chapters/01-intro.md" = "01-intro" := by decide
example : pyBasename "images/cover.jpg" = "cover.jpg" := by decide

/-- Embedding of get_image_mimetype: mimetype of an image derived from
the extension of its file name. -/
def get_image_mimetype (image_name : String) : String :=
  let extension := pySplitextExt image_name
  if extension = ".gif" then "image/gif"
  else if extension = ".jpg" then "image/jpeg"
  else if extension = ".jpeg" then "image/jpeg"
  else if extension = ".png" then "image/png"
  else "application/octet-stream"

example : get_image_mimetype "example/toto.png" = "image/png" := by decide
example : get_image_mimetype "example/toto.jpg" = "image/jpeg" := by decide
example : get_image_mimetype "example/toto.gif.jpeg" = "image/jpeg" := by decide
example : get_image_mimetype "" = "application/octet-stream" := by decide
example : get_image_mimetype "example.example/toto" = "application/octet-stream" := by decide

/-! The publication model: the in-memory state EPubGenerator builds from
description.json and the images directory. -/

/-- One entry of the chapters list of description.json: a markdown path
and an optional per-chapter stylesheet. -/
structure Chapter where
  markdown : String
  css : Option String
deriving DecidableEq, Repr

/-- The loaded publication model.  The stylesheet collection is kept
abstract here (see styleUnion and stylesValid below) because the code
stores it in a Python set whose iteration order is hash-randomized. -/
structure EPubModel where
  language : String
  metadata : List (String × String)
  coverImage : String
  defaultCss : List String
  chapters : List Chapter
  images : List String
deriving DecidableEq, Repr

/-- Insertion sequence of the stylesheet set:
set(default_css) followed by update with every chapter css field. -/
def styleUnion (m : EPubModel) : List String :=
  m.defaultCss ++ m.chapters.filterMap Chapter.css

/-- A list is a possible iteration order of the stylesheet set self.styles:
it has no duplicates and holds exactly the inserted elements.  CPython
iterates a set of strings in an order depending on randomized hashes, so
every such enumeration must be considered. -/
def stylesValid (m : EPubModel) (enum : List String) : Prop :=
  enum.Nodup ∧ (∀ s ∈ enum, s ∈ styleUnion m) ∧ (∀ s ∈ styleUnion m, s ∈ enum)

instance (m : EPubModel) (enum : List String) : Decidable (stylesValid m enum) := by
  unfold stylesValid
  infer_instance

/-- Append an element to an ordered collection unless already present. -/
def addIfAbsent (acc : List String) (x : String) : List String :=
  if acc.contains x then acc else acc ++ [x]

/-- The style order the specification describes: default stylesheets first
in declared order, then each chapter stylesheet not already present, in
chapter-declaration order (first-seen deduplication). -/
def specStyleOrder (m : EPubModel) : List String :=
  (styleUnion m).foldl addIfAbsent []

theorem mem_foldl_addIfAbsent (l : List String) :
    ∀ acc x, x ∈ l.foldl addIfAbsent acc ↔ x ∈ acc ∨ x ∈ l := by
  induction l with
  | nil => simp
  | cons a l ih =>
    intro acc x
    rw [List.foldl_cons, ih]
    unfold addIfAbsent
    by_cases ha : acc.contains a
    · rw [if_pos ha]
      have hmem : a ∈ acc := by
        simpa using ha
      constructor
      · rintro (h | h)
        · exact Or.inl h
        · exact Or.inr (List.mem_cons_of_mem a h)
      · rintro (h | h)
        · exact Or.inl h
        · rcases List.mem_cons.mp h with h | h
          · exact Or.inl (h ▸ hmem)
          · exact Or.inr h
    · rw [if_neg ha]
      simp only [List.mem_append, List.mem_singleton, List.mem_cons]
      tauto

theorem nodup_foldl_addIfAbsent (l : List String) :
    ∀ acc, acc.Nodup → (l.foldl addIfAbsent acc).Nodup := by
  induction l with
  | nil => intro acc h; exact h
  | cons a l ih =>
    intro acc h
    rw [List.foldl_cons]
    apply ih
    unfold addIfAbsent
    by_cases ha : acc.contains a
    · rwa [if_pos ha]
    · rw [if_neg ha]
      have hmem : a ∉ acc := by
        intro hc
        exact ha (by simpa using hc)
      simp [List.nodup_append, h, hmem]

theorem nodup_specStyleOrder (m : EPubModel) : (specStyleOrder m).Nodup :=
  nodup_foldl_addIfAbsent _ [] List.nodup_nil

theorem mem_specStyleOrder (m : EPubModel) (x : String) :
    x ∈ specStyleOrder m ↔ x ∈ styleUnion m := by
  unfold specStyleOrder
  rw [mem_foldl_addIfAbsent]
  simp

/-- Any possible iteration order of the stylesheet set is a permutation
of the order the specification describes. -/
theorem stylesValid_perm {m : EPubModel} {enum : List String}
    (h : stylesValid m enum) : enum.Perm (specStyleOrder m) := by
  obtain ⟨hnd, hsub, hsup⟩ := h
  rw [List.perm_ext_iff_of_nodup hnd (nodup_specStyleOrder m)]
  intro a
  rw [mem_specStyleOrder]
  exact ⟨fun ha => hsub a ha, fun ha => hsup a ha⟩

/-! The description loader: EPubGenerator.__init__. -/

/-- A parsed description.json with every top-level key optional, so
missing keys can be distinguished. -/
structure RawDescription where
  metadata : Option (List (String × String))
  cover_image : Option String
  default_css : Option (List String)
  chapters : Option (List Chapter)
deriving DecidableEq, Repr

/-- The description artifact as found on disk: absent, present but not
valid JSON, or parsed. -/
inductive LoadInput where
  | missingFile
  | unparsable
  | parsed (d : RawDescription)
deriving DecidableEq, Repr

/-- The exception the constructor escapes with: FileNotFoundError,
json.JSONDecodeError, or KeyError naming the missing key. -/
inductive LoadError where
  | fileNotFound (path : String)
  | jsonDecodeError
  | keyError (key : String)
deriving DecidableEq, Repr

/-- Python dict subscript: value or KeyError naming the key. -/
def dictGet (d : List (String × String)) (k : String) : Except LoadError String :=
  match d.lookup k with
  | some v => Except.ok v
  | none => Except.error (LoadError.keyError k)

/-- Subscript of a top-level description key. -/
def getKey {α : Type} (v : Option α) (k : String) : Except LoadError α :=
  match v with
  | some x => Except.ok x
  | none => Except.error (LoadError.keyError k)

/-- Embedding of find_images: the files of the images directory with a
gif, jpg, jpeg or png extension, each joined under images/. -/
def find_images (imageFiles : List String) : List String :=
  (imageFiles.filter
      (fun f => [".gif", ".jpg", ".jpeg", ".png"].contains (pySplitextExt f))).map
    (fun f => "images/" ++ pyBasename f)

/-- The state EPubGenerator.__init__ leaves behind.  stylesInserted is
the insertion sequence of the stylesheet set; the set retains exactly its
elements, in an unspecified iteration order. -/
structure InitState where
  markdowns : List Chapter
  language : String
  stylesInserted : List String
  images : List String
deriving DecidableEq, Repr

/-- Embedding of EPubGenerator.__init__, in the order the code reads the
description: the chapters key, the metadata key, the dc:language key
inside it, then the default_css key.  cover_image, dc:title, dc:creator
and dc:identifier are not read during loading. -/
def epubInit (input : LoadInput) (imageFiles : List String) :
    Except LoadError InitState :=
  match input with
  | LoadInput.missingFile => Except.error (LoadError.fileNotFound "description.json")
  | LoadInput.unparsable => Except.error LoadError.jsonDecodeError
  | LoadInput.parsed d => do
    let chapters ← getKey d.chapters "chapters"
    let meta ← getKey d.metadata "metadata"
    let language ← dictGet meta "dc:language"
    let defaultCss ← getKey d.default_css "default_css"
    Except.ok
      { markdowns := chapters
        language := language
        stylesInserted := defaultCss ++ chapters.filterMap Chapter.css
        images := find_images imageFiles }

/-! Chapter titles: EPubGenerator.chapter_title. -/

/-- Characters of the first line of a source text, split("backslash-n")[0]. -/
def firstLine (markdown_data : String) : List Char :=
  markdown_data.data.takeWhile (fun c => c ≠ '\n')

/-- Number of characters matched at the start of a line by the anchored
greedy regular expression of chapter_title: a maximal run of the hash
character followed by a maximal run of spaces. -/
def regexMatchLen (l : List Char) : Nat :=
  let hashes := (l.takeWhile (fun c => c = '#')).length
  hashes + ((l.drop hashes).takeWhile (fun c => c = ' ')).length

/-- Embedding of chapter_title applied to the chapter source text:
re.sub removes the matched run from the first line. -/
def chapter_title (markdown_data : String) : String :=
  String.mk ((firstLine markdown_data).drop (regexMatchLen (firstLine markdown_data)))

/-- The title derivation as the specification words it: the first line
with the leading run of hash characters and the spaces that follow it
stripped. -/
def specChapterTitle (markdown_data : String) : String :=
  String.mk (((firstLine markdown_data).dropWhile (fun c => c = '#')).dropWhile
    (fun c => c = ' '))

example : chapter_title "## My Title\nBody" = "My Title" := by decide
example : chapter_title "No heading\nBody" = "No heading" := by decide

/-! Structural builders: _create_metadata, _create_manifest,
_create_spine, _create_guide of package_opf_xml. -/

/-- One item element of the manifest. -/
structure ManifestItem where
  id : String
  href : String
  mediaType : String
  properties : Option String
deriving DecidableEq, Repr

/-- Manifest item for TOC.xhtml. -/
def tocItem : ManifestItem :=
  ⟨"toc", "TOC.xhtml", "application/xhtml+xml", some "nav"⟩

/-- Manifest item for toc.ncx. -/
def ncxItem : ManifestItem :=
  ⟨"ncx", "toc.ncx", "application/x-dtbncx+xml", none⟩

/-- Manifest item for titlepage.xhtml. -/
def titlepageItem : ManifestItem :=
  ⟨"titlepage", "titlepage.xhtml", "application/xhtml+xml", none⟩

/-- Manifest items of the chapter loop, starting at the given index. -/
def chapterItemsFrom : Nat → List Chapter → List ManifestItem
  | _, [] => []
  | i, c :: cs =>
    ⟨"s" ++ pad5 i, "s" ++ pad5 i ++ "-" ++ pyStem c.markdown ++ ".xhtml",
      "application/xhtml+xml", none⟩ :: chapterItemsFrom (i + 1) cs

/-- Manifest items of the image loop, starting at the given index; the
image whose path equals the cover path carries the cover-image property. -/
def imageItemsFrom (cover : String) : Nat → List String → List ManifestItem
  | _, [] => []
  | i, img :: imgs =>
    ⟨"image-" ++ pad5 i, img, get_image_mimetype img,
      if img = cover then some "cover-image" else none⟩ ::
      imageItemsFrom cover (i + 1) imgs

/-- Manifest items of the stylesheet loop over the iteration order of the
stylesheet set, starting at the given index. -/
def cssItemsFrom : Nat → List String → List ManifestItem
  | _, [] => []
  | i, s :: ss =>
    ⟨"css-" ++ pad5 i, s, "text/css", none⟩ :: cssItemsFrom (i + 1) ss

/-- Embedding of _create_manifest; stylesEnum is the iteration order of
the stylesheet set in this run. -/
def create_manifest (m : EPubModel) (stylesEnum : List String) : List ManifestItem :=
  [tocItem, ncxItem, titlepageItem]
    ++ chapterItemsFrom 0 m.chapters
    ++ imageItemsFrom m.coverImage 0 m.images
    ++ cssItemsFrom 0 stylesEnum

/-- One itemref element of the spine. -/
structure SpineItem where
  idref : String
  linear : String
deriving DecidableEq, Repr

/-- Itemrefs of the chapter loop of _create_spine. -/
def spineItemsFrom : Nat → List Chapter → List SpineItem
  | _, [] => []
  | i, _ :: cs => ⟨"s" ++ pad5 i, "yes"⟩ :: spineItemsFrom (i + 1) cs

/-- Embedding of _create_spine. -/
def create_spine (m : EPubModel) : List SpineItem :=
  ⟨"titlepage", "yes"⟩ :: spineItemsFrom 0 m.chapters

/-- One reference element of the guide. -/
structure GuideRef where
  type : String
  title : String
  href : String
deriving DecidableEq, Repr

/-- Embedding of _create_guide. -/
def create_guide (_m : EPubModel) : List GuideRef :=
  [⟨"cover", "Cover image", "titlepage.xhtml"⟩]

/-- One child element of the metadata element. -/
inductive MetaEntry where
  | field (key : String) (idAttr : Option String) (value : String)
  | modified (timestamp : String)
  | coverMeta (content : String)
deriving DecidableEq, Repr

/-- The id attribute _create_metadata puts on three fields. -/
def metaIdAttr (key uuid : String) : Option String :=
  if key = "dc:title" then some "title"
  else if key = "dc:creator" then some "creator"
  else if key = "dc:identifier" then some uuid
  else none

/-- Cover meta elements of the image loop of _create_metadata. -/
def coverMetasFrom (cover : String) : Nat → List String → List MetaEntry
  | _, [] => []
  | i, img :: imgs =>
    (if img = cover then [MetaEntry.coverMeta ("image-" ++ pad5 i)] else []) ++
      coverMetasFrom cover (i + 1) imgs

/-- Embedding of _create_metadata: one element per non-empty metadata
field in declaration order, the dcterms:modified timestamp, then one
cover meta per image whose path equals the cover path. -/
def create_metadata (m : EPubModel) (uuid timestamp : String) : List MetaEntry :=
  (m.metadata.filterMap (fun kv =>
      if kv.2.length = 0 then none
      else some (MetaEntry.field kv.1 (metaIdAttr kv.1 uuid) kv.2)))
    ++ [MetaEntry.modified timestamp]
    ++ coverMetasFrom m.coverImage 0 m.images

/-- The four substructures of package.opf, built by package_opf_xml. -/
structure OpfStructure where
  metadata : List MetaEntry
  manifest : List ManifestItem
  spine : List SpineItem
  guide : List GuideRef
deriving DecidableEq, Repr

/-- Embedding of package_opf_xml: uuid and timestamp are the values
freshly generated for this build, stylesEnum the iteration order of the
stylesheet set in this run. -/
def package_opf (m : EPubModel) (uuid timestamp : String)
    (stylesEnum : List String) : OpfStructure :=
  ⟨create_metadata m uuid timestamp, create_manifest m stylesEnum,
    create_spine m, create_guide m⟩

/-! The archive writer: epub_put and create_epub.  The build is traced
as the sequence of zip members written, in order, together with the
fatal error that aborted it, if any. -/

/-- Zip storage method of a member. -/
inductive ZipMethod where
  | stored
  | deflated (level : Nat)
deriving DecidableEq, Repr

/-- One member of the zip archive. -/
structure ZipEntry where
  name : String
  method : ZipMethod
deriving DecidableEq, Repr

/-- Embedding of epub_put: mimetype is stored uncompressed, every other
member is deflated at level 9. -/
def epub_put (filename : String) : ZipEntry :=
  if filename = "mimetype" then ⟨filename, ZipMethod.stored⟩
  else ⟨filename, ZipMethod.deflated 9⟩

/-- A fatal_error call: message printed on stderr and process exit code. -/
structure FatalError where
  message : String
  code : Nat
deriving DecidableEq, Repr

/-- Exit code ERROR_INVALID_MARKDOWN. -/
def ERROR_INVALID_MARKDOWN : Nat := 8

/-- Exit code of the zopflipng failure path. -/
def zopfliErrorCode : Nat := 6

/-- Archive path of the content document of chapter number i. -/
def chapterFileName (i : Nat) (c : Chapter) : String :=
  "OPS/" ++ ("s" ++ pad5 i ++ "-" ++ pyStem c.markdown ++ ".xhtml")

/-- Embedding of chapter_xml, abstracted over the external converter and
parser: parsesOk tells whether the markdown conversion of the named
chapter yields a fragment that parses as well-formed XML.  On failure
the code calls fatal_error naming the chapter.  The produced document
bytes are abstracted away. -/
def chapter_xml (parsesOk : String → Bool) (markdown_name : String) :
    Except FatalError Unit :=
  if parsesOk markdown_name then Except.ok ()
  else Except.error ⟨"Invalid markdown file " ++ markdown_name, ERROR_INVALID_MARKDOWN⟩

/-- The chapter loop of create_epub: members written and the error that
aborted the loop, if any.  fatal_error terminates the process, so a
failing chapter writes nothing and nothing after it runs. -/
def chaptersLoop (parsesOk : String → Bool) :
    Nat → List Chapter → List ZipEntry × Option FatalError
  | _, [] => ([], none)
  | i, c :: cs =>
    match chapter_xml parsesOk c.markdown with
    | Except.error e => ([], some e)
    | Except.ok _ =>
      let rest := chaptersLoop parsesOk (i + 1) cs
      (epub_put (chapterFileName i c) :: rest.1, rest.2)

/-- The image loop of create_epub; processOk tells whether process_image
succeeds on the named image (it calls fatal_error when the zopflipng
subprocess exits non-zero). -/
def imagesLoop (processOk : String → Bool) :
    List String → List ZipEntry × Option FatalError
  | [] => ([], none)
  | img :: imgs =>
    if processOk img then
      let rest := imagesLoop processOk imgs
      (epub_put ("OPS/" ++ img) :: rest.1, rest.2)
    else ([], some ⟨"Could not use zopflipng on " ++ img, zopfliErrorCode⟩)

/-- Outcome of a build: the members written to the archive, in order,
and the fatal error that aborted the build, if any. -/
structure BuildResult where
  entries : List ZipEntry
  error : Option FatalError
deriving DecidableEq, Repr

/-- Embedding of create_epub: mimetype, container.xml, package.opf,
titlepage, the chapter documents, TOC.xhtml, toc.ncx, the processed
images, then the stylesheets, stopping at the first fatal error. -/
def create_epub (m : EPubModel) (stylesEnum : List String)
    (parsesOk processOk : String → Bool) : BuildResult :=
  let header := [epub_put "mimetype", epub_put "META-INF/container.xml",
    epub_put "OPS/package.opf", epub_put "OPS/titlepage.xhtml"]
  match chaptersLoop parsesOk 0 m.chapters with
  | (chapterEntries, some e) => ⟨header ++ chapterEntries, some e⟩
  | (chapterEntries, none) =>
    let afterToc := header ++ chapterEntries ++
      [epub_put "OPS/TOC.xhtml", epub_put "OPS/toc.ncx"]
    match imagesLoop processOk m.images with
    | (imageEntries, some e) => ⟨afterToc ++ imageEntries, some e⟩
    | (imageEntries, none) =>
      ⟨afterToc ++ imageEntries ++
        stylesEnum.map (fun s => epub_put ("OPS/" ++ s)), none⟩

/-! General list lemmas used below. -/

theorem dropWhile_eq_drop_length {α : Type} (p : α → Bool) (l : List α) :
    l.dropWhile p = l.drop (l.takeWhile p).length := by
  induction l with
  | nil => rfl
  | cons a l ih =>
    by_cases h : p a <;>
      simp [List.dropWhile_cons, List.takeWhile_cons, h, ih]

/-! Claim C9: chapter title derivation. -/

/-- Claim C9: for every chapter source text, the derived chapter title is
the first line of the source with the leading run of hash characters and
the spaces that follow it removed; in particular a source beginning with
a level-two heading line "My Title" yields the title "My Title". -/
theorem chapter_title_spec :
    (∀ markdown_data : String,
      chapter_title markdown_data = specChapterTitle markdown_data) ∧
    chapter_title "## My Title\nBody" = "My Title" := by
  constructor
  · intro md
    unfold chapter_title specChapterTitle regexMatchLen
    congr 1
    have h1 : (firstLine md).dropWhile (fun c => c = '#') =
        (firstLine md).drop ((firstLine md).takeWhile (fun c => c = '#')).length :=
      dropWhile_eq_drop_length _ _
    rw [h1, dropWhile_eq_drop_length, List.drop_drop]
  · decide

/-! Claim C6: image mimetype derivation. -/

/-- The extension-to-mimetype table the specification describes. -/
def mimetypeTable (extension : String) : String :=
  if extension = ".gif" then "image/gif"
  else if extension = ".jpg" then "image/jpeg"
  else if extension = ".jpeg" then "image/jpeg"
  else if extension = ".png" then "image/png"
  else "application/octet-stream"

/-- Claim C6: the derived mimetype is a total function of the file-name
extension, with gif, jpg, jpeg and png mapped to their image types and
every other extension mapped to the generic binary type. -/
theorem image_mimetype_total :
    (∀ image_name : String,
      get_image_mimetype image_name = mimetypeTable (pySplitextExt image_name)) ∧
    mimetypeTable ".gif" = "image/gif" ∧
    mimetypeTable ".jpg" = "image/jpeg" ∧
    mimetypeTable ".jpeg" = "image/jpeg" ∧
    mimetypeTable ".png" = "image/png" ∧
    (∀ extension : String,
      extension ∉ ([".gif", ".jpg", ".jpeg", ".png"] : List String) →
      mimetypeTable extension = "application/octet-stream") ∧
    get_image_mimetype "example/toto.gif.jpeg" = "image/jpeg" ∧
    get_image_mimetype "example.example/toto" = "application/octet-stream" := by
  refine ⟨fun _ => rfl, rfl, rfl, rfl, rfl, ?_, by decide, by decide⟩
  intro extension h
  simp only [List.mem_cons, List.not_mem_nil, or_false, not_or] at h
  obtain ⟨h1, h2, h3, h4⟩ := h
  unfold mimetypeTable
  rw [if_neg h1, if_neg h2, if_neg h3, if_neg h4]

/-- Witness for C6 at a concrete unknown extension. -/
theorem image_mimetype_total_witness :
    get_image_mimetype "images/cover.bmp" =
      mimetypeTable (pySplitextExt "images/cover.bmp") ∧
    mimetypeTable ".bmp" = "application/octet-stream" :=
  ⟨image_mimetype_total.1 "images/cover.bmp",
    image_mimetype_total.2.2.2.2.2.1 ".bmp" (by decide)⟩

/-! Claim C1: the stylesheet collection. -/

/-- A description with one default stylesheet and one chapter-only
stylesheet, for exhibiting a set iteration order that is not the
declaration order. -/
def c1Model : EPubModel :=
  { language := "en"
    metadata := []
    coverImage := ""
    defaultCss := ["css/a.css"]
    chapters := [⟨"ch1.md", some "css/b.css"⟩]
    images := [] }

/-- Counterexample to C1 as stated: the stylesheet collection is a Python
set, so the enumeration putting the chapter stylesheet before the default
stylesheet is a possible iteration order, yet it does not put the default
stylesheets first. -/
theorem styleset_order_counterexample :
    stylesValid c1Model ["css/b.css", "css/a.css"] ∧
    specStyleOrder c1Model = ["css/a.css", "css/b.css"] ∧
    (["css/b.css", "css/a.css"] : List String) ≠ specStyleOrder c1Model ∧
    (["css/b.css", "css/a.css"] : List String).head? ≠ some "css/a.css" := by
  refine ⟨by decide, by decide, by decide, by decide⟩

/-- Claim C1 (amended): every possible iteration order of the stylesheet
set contains each stylesheet path exactly once, and its elements are
exactly the default stylesheets together with the chapter css fields
(it is a permutation of the declaration-ordered union); the iteration
order itself is unspecified. -/
theorem styleset_dedup_union (m : EPubModel) (enum : List String)
    (h : stylesValid m enum) :
    enum.Nodup ∧
    enum.Perm (specStyleOrder m) ∧
    (∀ s, s ∈ enum ↔
      (s ∈ m.defaultCss ∨ ∃ c ∈ m.chapters, c.css = some s)) := by
  refine ⟨h.1, stylesValid_perm h, ?_⟩
  intro s
  have hmem : s ∈ enum ↔ s ∈ styleUnion m :=
    ⟨fun hs => h.2.1 s hs, fun hs => h.2.2 s hs⟩
  rw [hmem]
  unfold styleUnion
  rw [List.mem_append, List.mem_filterMap]

/-- Witness for C1 at a concrete description and iteration order. -/
theorem styleset_dedup_union_witness :
    stylesValid c1Model ["css/b.css", "css/a.css"] ∧
    (["css/b.css", "css/a.css"] : List String).Nodup ∧
    (["css/b.css", "css/a.css"] : List String).Perm (specStyleOrder c1Model) ∧
    (∀ s, s ∈ (["css/b.css", "css/a.css"] : List String) ↔
      (s ∈ c1Model.defaultCss ∨ ∃ c ∈ c1Model.chapters, c.css = some s)) :=
  ⟨by decide, styleset_dedup_union c1Model ["css/b.css", "css/a.css"] (by decide)⟩

/-! Claim C4: the spine. -/

theorem spineItemsFrom_length (cs : List Chapter) :
    ∀ i, (spineItemsFrom i cs).length = cs.length := by
  induction cs with
  | nil => intro i; rfl
  | cons c cs ih => intro i; simp [spineItemsFrom, ih]

theorem spineItemsFrom_get (cs : List Chapter) :
    ∀ i k, k < cs.length →
      (spineItemsFrom i cs)[k]? = some ⟨"s" ++ pad5 (i + k), "yes"⟩ := by
  induction cs with
  | nil => intro i k hk; cases hk
  | cons c cs ih =>
    intro i k hk
    match k with
    | 0 => simp [spineItemsFrom]
    | k + 1 =>
      have hk2 : k < cs.length := by simpa using hk
      have h3 := ih (i + 1) k hk2
      have harith : i + 1 + k = i + (k + 1) := by omega
      rw [harith] at h3
      simp only [spineItemsFrom, List.getElem?_cons_succ]
      exact h3

theorem spineItemsFrom_linear (cs : List Chapter) :
    ∀ i, ∀ e ∈ spineItemsFrom i cs, e.linear = "yes" := by
  induction cs with
  | nil => intro i e he; cases he
  | cons c cs ih =>
    intro i e he
    rcases List.mem_cons.mp he with h | h
    · rw [h]
    · exact ih (i + 1) e h

/-- Claim C4: the spine is the title-page itemref followed by one itemref
per chapter in declaration order, and every entry is linear. -/
theorem spine_layout (m : EPubModel) :
    (create_spine m).length = m.chapters.length + 1 ∧
    (create_spine m).head? = some ⟨"titlepage", "yes"⟩ ∧
    (∀ i, i < m.chapters.length →
      (create_spine m)[i + 1]? = some ⟨"s" ++ pad5 i, "yes"⟩) ∧
    (∀ e ∈ create_spine m, e.linear = "yes") := by
  refine ⟨by simp [create_spine, spineItemsFrom_length], rfl, ?_, ?_⟩
  · intro i hi
    show (create_spine m)[i + 1]? = some ⟨"s" ++ pad5 i, "yes"⟩
    unfold create_spine
    rw [List.getElem?_cons_succ]
    have := spineItemsFrom_get m.chapters 0 i hi
    rwa [Nat.zero_add] at this
  · intro e he
    rcases List.mem_cons.mp he with h | h
    · rw [h]
    · exact spineItemsFrom_linear m.chapters 0 e h

/-- Witness for C4 on a two-chapter model. -/
theorem spine_layout_witness :
    0 < (c1Model.chapters.length) ∧
    (create_spine c1Model)[0 + 1]? = some ⟨"s" ++ pad5 0, "yes"⟩ :=
  ⟨by decide, (spine_layout c1Model).2.2.1 0 (by decide)⟩

/-! Claim C7: loader failures. -/

/-- A description whose metadata has a language but no title, creator or
identifier, and which has no cover_image key at all. -/
def c7Desc : RawDescription :=
  { metadata := some [("dc:language", "en-US")]
    cover_image := none
    default_css := some []
    chapters := some [] }

/-- Counterexample to C7 as stated: loading succeeds even though the
description lacks dc:title, dc:creator, dc:identifier and the cover
image reference; those fields are only read later, during the build. -/
theorem loader_required_fields_counterexample :
    ((c7Desc.metadata.getD []).lookup "dc:title" = none) ∧
    ((c7Desc.metadata.getD []).lookup "dc:creator" = none) ∧
    ((c7Desc.metadata.getD []).lookup "dc:identifier" = none) ∧
    c7Desc.cover_image = none ∧
    (epubInit (LoadInput.parsed c7Desc) []).isOk = true := by
  refine ⟨rfl, rfl, rfl, rfl, rfl⟩

/-- Claim C7 (amended): loading fails, with an error identifying the
missing artifact or key, exactly when the description artifact is
missing, is not parsable, or lacks the chapters key, the metadata key,
the dc:language field or the default_css key; a missing dc:title,
dc:creator, dc:identifier or cover image is not detected during loading
(those are read later, during the build). -/
theorem loader_errors :
    (∀ files, epubInit LoadInput.missingFile files =
      Except.error (LoadError.fileNotFound "description.json")) ∧
    (∀ files, epubInit LoadInput.unparsable files =
      Except.error LoadError.jsonDecodeError) ∧
    (∀ (d : RawDescription) files, d.chapters = none →
      epubInit (LoadInput.parsed d) files =
        Except.error (LoadError.keyError "chapters")) ∧
    (∀ (d : RawDescription) cs files, d.chapters = some cs →
      d.metadata = none →
      epubInit (LoadInput.parsed d) files =
        Except.error (LoadError.keyError "metadata")) ∧
    (∀ (d : RawDescription) cs meta files, d.chapters = some cs →
      d.metadata = some meta → meta.lookup "dc:language" = none →
      epubInit (LoadInput.parsed d) files =
        Except.error (LoadError.keyError "dc:language")) ∧
    (∀ (d : RawDescription) cs meta lang files, d.chapters = some cs →
      d.metadata = some meta → meta.lookup "dc:language" = some lang →
      d.default_css = none →
      epubInit (LoadInput.parsed d) files =
        Except.error (LoadError.keyError "default_css")) ∧
    (∀ (d : RawDescription) cs meta lang css files, d.chapters = some cs →
      d.metadata = some meta → meta.lookup "dc:language" = some lang →
      d.default_css = some css →
      epubInit (LoadInput.parsed d) files =
        Except.ok
          { markdowns := cs
            language := lang
            stylesInserted := css ++ cs.filterMap Chapter.css
            images := find_images files }) := by
  refine ⟨fun _ => rfl, fun _ => rfl, ?_, ?_, ?_, ?_, ?_⟩
  · intro d files h
    simp [epubInit, getKey, h, Bind.bind, Except.bind]
  · intro d cs files h1 h2
    simp [epubInit, getKey, h1, h2, Bind.bind, Except.bind]
  · intro d cs meta files h1 h2 h3
    simp [epubInit, getKey, dictGet, h1, h2, h3, Bind.bind, Except.bind]
  · intro d cs meta lang files h1 h2 h3 h4
    simp [epubInit, getKey, dictGet, h1, h2, h3, h4, Bind.bind, Except.bind]
  · intro d cs meta lang css files h1 h2 h3 h4
    simp [epubInit, getKey, dictGet, h1, h2, h3, h4, Bind.bind, Except.bind]

/-- Witness for C7: a missing chapters key is a KeyError, and the sample
description loads successfully. -/
theorem loader_errors_witness :
    epubInit (LoadInput.parsed ⟨none, none, none, none⟩) [] =
      Except.error (LoadError.keyError "chapters") ∧
    epubInit (LoadInput.parsed c7Desc) ["cover.jpg"] =
      Except.ok
        { markdowns := []
          language := "en-US"
          stylesInserted := [] ++ List.filterMap Chapter.css []
          images := find_images ["cover.jpg"] } :=
  ⟨loader_errors.2.2.1 ⟨none, none, none, none⟩ [] rfl,
    loader_errors.2.2.2.2.2.2 c7Desc [] [("dc:language", "en-US")] "en-US" []
      ["cover.jpg"] rfl rfl rfl rfl⟩

/-! Claim C3: uniqueness of manifest item ids. -/

theorem chapterItemsFrom_map_id (cs : List Chapter) :
    ∀ i, (chapterItemsFrom i cs).map ManifestItem.id =
      (List.range' i cs.length).map (fun k => "s" ++ pad5 k) := by
  induction cs with
  | nil => intro i; rfl
  | cons c cs ih =>
    intro i
    simp only [chapterItemsFrom, List.map_cons, List.length_cons, List.range'_succ]
    exact congrArg _ (ih (i + 1))

theorem imageItemsFrom_map_id (cover : String) (imgs : List String) :
    ∀ i, (imageItemsFrom cover i imgs).map ManifestItem.id =
      (List.range' i imgs.length).map (fun k => "image-" ++ pad5 k) := by
  induction imgs with
  | nil => intro i; rfl
  | cons img imgs ih =>
    intro i
    simp only [imageItemsFrom, List.map_cons, List.length_cons, List.range'_succ]
    exact congrArg _ (ih (i + 1))

theorem cssItemsFrom_map_id (ss : List String) :
    ∀ i, (cssItemsFrom i ss).map ManifestItem.id =
      (List.range' i ss.length).map (fun k => "css-" ++ pad5 k) := by
  induction ss with
  | nil => intro i; rfl
  | cons s ss ih =>
    intro i
    simp only [cssItemsFrom, List.map_cons, List.length_cons, List.range'_succ]
    exact congrArg _ (ih (i + 1))

theorem head_of_family {p : String} {c : Char} (hp : p.data.head? = some c)
    {l : List Nat} {x : String}
    (hx : x ∈ l.map (fun k => p ++ pad5 k)) : x.data.head? = some c := by
  rcases List.mem_map.mp hx with ⟨k, _, rfl⟩
  exact head_append_of_head hp _

theorem head_conflict {x : String} {c1 c2 : Char}
    (h1 : x.data.head? = some c1) (h2 : x.data.head? = some c2)
    (h : c1 ≠ c2) : False := by
  rw [h1] at h2
  exact h (Option.some_injective _ h2)

theorem family_nodup (p : String) (n : Nat) :
    ((List.range n).map (fun k => p ++ pad5 k)).Nodup :=
  (List.nodup_range n).map (append_pad5_injective p)

theorem family_disjoint {p q : String} {c1 c2 : Char}
    (hp : p.data.head? = some c1) (hq : q.data.head? = some c2) (h : c1 ≠ c2)
    (l1 l2 : List Nat) :
    List.Disjoint (l1.map (fun k => p ++ pad5 k)) (l2.map (fun k => q ++ pad5 k)) := by
  intro x hx1 hx2
  exact head_conflict (head_of_family hp hx1) (head_of_family hq hx2) h

/-- Claim C3: the manifest ids are toc, ncx, titlepage, one prefixed
padded index per chapter, image and stylesheet, and they are pairwise
distinct for every publication model. -/
theorem manifest_ids_distinct (m : EPubModel) (enum : List String) :
    (create_manifest m enum).map ManifestItem.id =
      ["toc", "ncx", "titlepage"]
        ++ (List.range m.chapters.length).map (fun i => "s" ++ pad5 i)
        ++ (List.range m.images.length).map (fun i => "image-" ++ pad5 i)
        ++ (List.range enum.length).map (fun i => "css-" ++ pad5 i) ∧
    ((create_manifest m enum).map ManifestItem.id).Nodup := by
  have heq : (create_manifest m enum).map ManifestItem.id =
      ["toc", "ncx", "titlepage"]
        ++ (List.range m.chapters.length).map (fun i => "s" ++ pad5 i)
        ++ (List.range m.images.length).map (fun i => "image-" ++ pad5 i)
        ++ (List.range enum.length).map (fun i => "css-" ++ pad5 i) := by
    unfold create_manifest
    rw [List.map_append, List.map_append, List.map_append]
    rw [chapterItemsFrom_map_id, imageItemsFrom_map_id, cssItemsFrom_map_id]
    rw [List.range_eq_range', List.range_eq_range', List.range_eq_range']
    rfl
  refine ⟨heq, ?_⟩
  rw [heq]
  have hs : ("s" : String).data.head? = some 's' := rfl
  have hi : ("image-" : String).data.head? = some 'i' := rfl
  have hc : ("css-" : String).data.head? = some 'c' := rfl
  rw [List.append_assoc, List.append_assoc, List.nodup_append]
  refine ⟨by decide, ?_, ?_⟩
  · rw [List.nodup_append]
    refine ⟨family_nodup _ _, ?_, ?_⟩
    · rw [List.nodup_append]
      exact ⟨family_nodup _ _, family_nodup _ _,
        family_disjoint hi hc (by decide) _ _⟩
    · intro x hx1 hx2
      rcases List.mem_append.mp hx2 with h2 | h2
      · exact family_disjoint hs hi (by decide) _ _ hx1 h2
      · exact family_disjoint hs hc (by decide) _ _ hx1 h2
  · intro x hx1 hx2
    have hhead : x.data.head? = some 't' ∨ x.data.head? = some 'n' := by
      rcases List.mem_cons.mp hx1 with h | h
      · exact Or.inl (by rw [h]; rfl)
      rcases List.mem_cons.mp h with h | h
      · exact Or.inr (by rw [h]; rfl)
      rcases List.mem_cons.mp h with h | h
      · exact Or.inl (by rw [h]; rfl)
      · cases h
    have hhead2 : x.data.head? = some 's' ∨ x.data.head? = some 'i' ∨
        x.data.head? = some 'c' := by
      rcases List.mem_append.mp hx2 with h2 | h2
      · exact Or.inl (head_of_family hs h2)
      rcases List.mem_append.mp h2 with h3 | h3
      · exact Or.inr (Or.inl (head_of_family hi h3))
      · exact Or.inr (Or.inr (head_of_family hc h3))
    rcases hhead with h | h <;> rcases hhead2 with h2 | h2 | h2 <;>
      exact head_conflict h h2 (by decide)

/-! Claim C10: cover image handling. -/

/-- Whether a manifest item carries the cover-image property. -/
def hasCoverProp (it : ManifestItem) : Bool :=
  it.properties = some "cover-image"

/-- Content of a cover meta element, none for other metadata entries. -/
def coverMetaContent : MetaEntry → Option String
  | MetaEntry.coverMeta c => some c
  | MetaEntry.field _ _ _ => none
  | MetaEntry.modified _ => none

theorem chapterItemsFrom_no_cover (cs : List Chapter) :
    ∀ i, (chapterItemsFrom i cs).filter hasCoverProp = [] := by
  induction cs with
  | nil => intro i; rfl
  | cons c cs ih =>
    intro i
    simp only [chapterItemsFrom, List.filter_cons]
    rw [if_neg]
    · exact ih (i + 1)
    · exact Bool.false_ne_true

theorem cssItemsFrom_no_cover (ss : List String) :
    ∀ i, (cssItemsFrom i ss).filter hasCoverProp = [] := by
  induction ss with
  | nil => intro i; rfl
  | cons s ss ih =>
    intro i
    simp only [cssItemsFrom, List.filter_cons]
    rw [if_neg]
    · exact ih (i + 1)
    · exact Bool.false_ne_true

theorem imageItemsFrom_no_cover {cover : String} {imgs : List String}
    (h : cover ∉ imgs) :
    ∀ i, (imageItemsFrom cover i imgs).filter hasCoverProp = [] := by
  induction imgs with
  | nil => intro i; rfl
  | cons img imgs ih =>
    intro i
    have hne : img ≠ cover := fun he => h (he ▸ List.mem_cons_self img imgs)
    have h2 : cover ∉ imgs := fun hc => h (List.mem_cons_of_mem img hc)
    simp [imageItemsFrom, List.filter_cons, hasCoverProp, hne, ih h2 (i + 1)]

theorem coverMetasFrom_no_cover {cover : String} {imgs : List String}
    (h : cover ∉ imgs) : ∀ i, coverMetasFrom cover i imgs = [] := by
  induction imgs with
  | nil => intro i; rfl
  | cons img imgs ih =>
    intro i
    have hne : img ≠ cover := fun he => h (he ▸ List.mem_cons_self img imgs)
    have h2 : cover ∉ imgs := fun hc => h (List.mem_cons_of_mem img hc)
    simp only [coverMetasFrom, if_neg hne, List.nil_append]
    exact ih h2 (i + 1)

theorem imageItemsFrom_cover_once {cover : String} :
    ∀ (imgs : List String) (i : Nat), imgs.count cover = 1 →
      (imageItemsFrom cover i imgs).filter hasCoverProp =
        [⟨"image-" ++ pad5 (i + imgs.indexOf cover), cover,
          get_image_mimetype cover, some "cover-image"⟩] := by
  intro imgs
  induction imgs with
  | nil => intro i h; cases h
  | cons img imgs ih =>
    intro i h
    by_cases himg : img = cover
    · subst himg
      have hcount : imgs.count img = 0 := by
        rw [List.count_cons] at h
        simpa using h
      have hnot : img ∉ imgs := List.count_eq_zero.mp hcount
      rw [List.indexOf_cons]
      simp [imageItemsFrom, List.filter_cons, hasCoverProp,
        imageItemsFrom_no_cover hnot (i + 1)]
    · have hbeq : (img == cover) = false := by
        simp [himg]
      have hcount : imgs.count cover = 1 := by
        rw [List.count_cons, hbeq] at h
        simpa using h
      rw [List.indexOf_cons, hbeq]
      have harith : i + (cond false 0 (imgs.indexOf cover + 1)) =
          i + 1 + imgs.indexOf cover := by
        simp only [cond_false]
        omega
      rw [harith]
      simp [imageItemsFrom, List.filter_cons, hasCoverProp, himg,
        ih (i + 1) hcount]

theorem coverMetasFrom_cover_once {cover : String} :
    ∀ (imgs : List String) (i : Nat), imgs.count cover = 1 →
      coverMetasFrom cover i imgs =
        [MetaEntry.coverMeta ("image-" ++ pad5 (i + imgs.indexOf cover))] := by
  intro imgs
  induction imgs with
  | nil => intro i h; cases h
  | cons img imgs ih =>
    intro i h
    by_cases himg : img = cover
    · subst himg
      have hcount : imgs.count img = 0 := by
        rw [List.count_cons] at h
        simpa using h
      have hnot : img ∉ imgs := List.count_eq_zero.mp hcount
      rw [List.indexOf_cons]
      simp [coverMetasFrom, coverMetasFrom_no_cover hnot (i + 1)]
    · have hbeq : (img == cover) = false := by
        simp [himg]
      have hcount : imgs.count cover = 1 := by
        rw [List.count_cons, hbeq] at h
        simpa using h
      rw [List.indexOf_cons, hbeq]
      have harith : i + (cond false 0 (imgs.indexOf cover + 1)) =
          i + 1 + imgs.indexOf cover := by
        simp only [cond_false]
        omega
      rw [harith]
      simp only [coverMetasFrom, if_neg himg, List.nil_append]
      exact ih (i + 1) hcount

theorem create_manifest_filter_cover (m : EPubModel) (enum : List String) :
    (create_manifest m enum).filter hasCoverProp =
      (imageItemsFrom m.coverImage 0 m.images).filter hasCoverProp := by
  unfold create_manifest
  rw [List.filter_append, List.filter_append, List.filter_append]
  rw [chapterItemsFrom_no_cover, cssItemsFrom_no_cover]
  have h3 : ([tocItem, ncxItem, titlepageItem].filter hasCoverProp) = [] := rfl
  rw [h3]
  simp

theorem create_metadata_filter_cover (m : EPubModel) (uuid timestamp : String) :
    (create_metadata m uuid timestamp).filterMap coverMetaContent =
      (coverMetasFrom m.coverImage 0 m.images).filterMap coverMetaContent := by
  unfold create_metadata
  rw [List.filterMap_append, List.filterMap_append]
  have h1 : (m.metadata.filterMap (fun kv =>
      if kv.2.length = 0 then none
      else some (MetaEntry.field kv.1 (metaIdAttr kv.1 uuid) kv.2))).filterMap
        coverMetaContent = [] := by
    rw [List.filterMap_eq_nil_iff]
    intro e he
    rcases List.mem_filterMap.mp he with ⟨kv, _, hkv⟩
    by_cases hz : kv.2.length = 0
    · rw [if_pos hz] at hkv; cases hkv
    · rw [if_neg hz] at hkv
      rw [← Option.some_injective _ hkv]
      rfl
  rw [h1]
  have h2 : ([MetaEntry.modified timestamp].filterMap coverMetaContent) = [] := rfl
  rw [h2]
  simp

theorem coverMetasFrom_filterMap (cover : String) :
    ∀ (imgs : List String) (i : Nat),
      (coverMetasFrom cover i imgs).filterMap coverMetaContent =
        (coverMetasFrom cover i imgs).map
          (fun e => match e with
            | MetaEntry.coverMeta c => c
            | _ => "") := by
  intro imgs
  induction imgs with
  | nil => intro i; rfl
  | cons img imgs ih =>
    intro i
    by_cases himg : img = cover
    · simp only [coverMetasFrom, if_pos himg, List.singleton_append,
        List.filterMap_cons, List.map_cons]
      rw [ih (i + 1)]
      rfl
    · simp only [coverMetasFrom, if_neg himg, List.nil_append]
      exact ih (i + 1)

/-- Claim C10: a cover reference matching no discovered image produces no
cover-image manifest property and no cover meta element, without any
error; a cover reference matching exactly one image produces exactly one
cover-image manifest item, and the cover meta content is that item id. -/
theorem cover_handling (m : EPubModel) (uuid timestamp : String)
    (enum : List String) :
    (m.coverImage ∉ m.images →
      (create_manifest m enum).filter hasCoverProp = [] ∧
      (create_metadata m uuid timestamp).filterMap coverMetaContent = []) ∧
    (m.images.count m.coverImage = 1 →
      (create_manifest m enum).filter hasCoverProp =
        [⟨"image-" ++ pad5 (m.images.indexOf m.coverImage), m.coverImage,
          get_image_mimetype m.coverImage, some "cover-image"⟩] ∧
      (create_metadata m uuid timestamp).filterMap coverMetaContent =
        ["image-" ++ pad5 (m.images.indexOf m.coverImage)]) ∧
    (∀ (c2 : String) (pOk iOk : String → Bool),
      (create_epub { m with coverImage := c2 } enum pOk iOk).error =
        (create_epub m enum pOk iOk).error) := by
  refine ⟨?_, ?_, fun _ _ _ => rfl⟩
  · intro h
    rw [create_manifest_filter_cover, create_metadata_filter_cover]
    rw [imageItemsFrom_no_cover h, coverMetasFrom_no_cover h]
    exact ⟨rfl, rfl⟩
  · intro h
    rw [create_manifest_filter_cover, create_metadata_filter_cover]
    rw [imageItemsFrom_cover_once m.images 0 h, coverMetasFrom_cover_once m.images 0 h]
    rw [Nat.zero_add]
    exact ⟨rfl, rfl⟩

/-- A model whose cover reference matches the second of two images. -/
def c10Model : EPubModel :=
  { language := "en"
    metadata := [("dc:title", "T")]
    coverImage := "images/cover.jpg"
    defaultCss := []
    chapters := []
    images := ["images/a.png", "images/cover.jpg"] }

/-- A model whose cover reference matches no image. -/
def c10ModelNone : EPubModel :=
  { c10Model with coverImage := "images/missing.jpg" }

/-- Witness for C10 in both the matching and the non-matching case. -/
theorem cover_handling_witness :
    (c10ModelNone.coverImage ∉ c10ModelNone.images ∧
      (create_manifest c10ModelNone []).filter hasCoverProp = [] ∧
      (create_metadata c10ModelNone "u" "t").filterMap coverMetaContent = []) ∧
    (c10Model.images.count c10Model.coverImage = 1 ∧
      (create_manifest c10Model []).filter hasCoverProp =
        [⟨"image-" ++ pad5 (c10Model.images.indexOf c10Model.coverImage),
          c10Model.coverImage, get_image_mimetype c10Model.coverImage,
          some "cover-image"⟩] ∧
      (create_metadata c10Model "u" "t").filterMap coverMetaContent =
        ["image-" ++ pad5 (c10Model.images.indexOf c10Model.coverImage)]) :=
  ⟨⟨by decide, (cover_handling c10ModelNone "u" "t" []).1 (by decide)⟩,
    ⟨by decide, (cover_handling c10Model "u" "t" []).2.1 (by decide)⟩⟩

/-! Claims C2 and C5: fail-fast build and archive layout. -/

theorem ops_ne_mimetype (x : String) : ("OPS/" ++ x) ≠ "mimetype" := by
  have hO : ("OPS/" : String).data.head? = some 'O' := rfl
  have hm : ("mimetype" : String).data.head? = some 'm' := rfl
  exact ne_of_head (head_append_of_head hO x) hm (by decide)

theorem epub_put_of_ne {n : String} (h : n ≠ "mimetype") :
    epub_put n = ⟨n, ZipMethod.deflated 9⟩ := by
  simp [epub_put, h]

theorem epub_put_chapterFileName (i : Nat) (c : Chapter) :
    epub_put (chapterFileName i c) = ⟨chapterFileName i c, ZipMethod.deflated 9⟩ :=
  epub_put_of_ne (ops_ne_mimetype ("s" ++ pad5 i ++ "-" ++ pyStem c.markdown ++ ".xhtml"))

/-- The zip members the chapter loop writes when every chapter converts,
starting at the given index. -/
def chapterEntriesFrom : Nat → List Chapter → List ZipEntry
  | _, [] => []
  | i, c :: cs =>
    ⟨chapterFileName i c, ZipMethod.deflated 9⟩ :: chapterEntriesFrom (i + 1) cs

theorem chaptersLoop_all_ok {pOk : String → Bool} :
    ∀ (cs : List Chapter) (i : Nat), (∀ c ∈ cs, pOk c.markdown = true) →
      chaptersLoop pOk i cs = (chapterEntriesFrom i cs, none) := by
  intro cs
  induction cs with
  | nil => intro i _; rfl
  | cons c cs ih =>
    intro i hall
    have hc : pOk c.markdown = true := hall c (List.mem_cons_self c cs)
    have hrest : ∀ x ∈ cs, pOk x.markdown = true :=
      fun x hx => hall x (List.mem_cons_of_mem c hx)
    simp only [chaptersLoop, chapter_xml, hc, if_pos, ih (i + 1) hrest,
      chapterEntriesFrom]
    rw [epub_put_chapterFileName]

theorem chaptersLoop_first_fail {pOk : String → Bool} {c : Chapter}
    (post : List Chapter) (hc : pOk c.markdown = false) :
    ∀ (pre : List Chapter) (i : Nat), (∀ p ∈ pre, pOk p.markdown = true) →
      chaptersLoop pOk i (pre ++ c :: post) =
        (chapterEntriesFrom i pre,
          some ⟨"Invalid markdown file " ++ c.markdown, ERROR_INVALID_MARKDOWN⟩) := by
  intro pre
  induction pre with
  | nil =>
    intro i _
    simp only [List.nil_append, chaptersLoop, chapter_xml, hc]
    rfl
  | cons p pre ih =>
    intro i hall
    have hp : pOk p.markdown = true := hall p (List.mem_cons_self p pre)
    have hrest : ∀ x ∈ pre, pOk x.markdown = true :=
      fun x hx => hall x (List.mem_cons_of_mem p hx)
    simp only [List.cons_append, chaptersLoop, chapter_xml, hp, if_pos,
      List.append_eq, ih (i + 1) hrest, chapterEntriesFrom]
    rw [epub_put_chapterFileName]

theorem imagesLoop_all_ok {iOk : String → Bool} :
    ∀ imgs : List String, (∀ g ∈ imgs, iOk g = true) →
      imagesLoop iOk imgs =
        (imgs.map (fun g => ⟨"OPS/" ++ g, ZipMethod.deflated 9⟩), none) := by
  intro imgs
  induction imgs with
  | nil => intro _; rfl
  | cons g imgs ih =>
    intro hall
    have hg : iOk g = true := hall g (List.mem_cons_self g imgs)
    have hrest : ∀ x ∈ imgs, iOk x = true :=
      fun x hx => hall x (List.mem_cons_of_mem g hx)
    simp only [imagesLoop, hg, if_pos, ih hrest, List.map_cons]
    rw [epub_put_of_ne (ops_ne_mimetype _)]

theorem chaptersLoop_methods {pOk : String → Bool} :
    ∀ (cs : List Chapter) (i : Nat) (e : ZipEntry),
      e ∈ (chaptersLoop pOk i cs).1 → e.method = ZipMethod.deflated 9 := by
  intro cs
  induction cs with
  | nil => intro i e he; cases he
  | cons c cs ih =>
    intro i e he
    by_cases hc : pOk c.markdown
    · simp only [chaptersLoop, chapter_xml, hc, if_pos] at he
      rcases List.mem_cons.mp he with h | h
      · rw [h, epub_put_chapterFileName]
      · exact ih (i + 1) e h
    · simp only [chaptersLoop, chapter_xml, hc, if_neg, Bool.false_eq_true] at he
      cases he

theorem imagesLoop_methods {iOk : String → Bool} :
    ∀ (imgs : List String) (e : ZipEntry),
      e ∈ (imagesLoop iOk imgs).1 → e.method = ZipMethod.deflated 9 := by
  intro imgs
  induction imgs with
  | nil => intro e he; cases he
  | cons g imgs ih =>
    intro e he
    by_cases hg : iOk g
    · simp only [imagesLoop, hg, if_pos] at he
      rcases List.mem_cons.mp he with h | h
      · rw [h, epub_put_of_ne (ops_ne_mimetype _)]
      · exact ih e h
    · simp only [imagesLoop, hg, if_neg, Bool.false_eq_true] at he
      cases he

/-- Claim C2: when a chapter is the first whose markdown conversion does
not parse as well-formed XML, the chapter document constructor fails
with the invalid-markdown fatal error naming that chapter, the whole
build aborts with that error, and the members written are exactly the
four header files and the documents of the chapters before it. -/
theorem build_fail_fast (m : EPubModel) (enum : List String)
    (pOk iOk : String → Bool) (pre : List Chapter) (c : Chapter)
    (post : List Chapter) (hsplit : m.chapters = pre ++ c :: post)
    (hpre : ∀ p ∈ pre, pOk p.markdown = true)
    (hc : pOk c.markdown = false) :
    chapter_xml pOk c.markdown =
      Except.error ⟨"Invalid markdown file " ++ c.markdown, ERROR_INVALID_MARKDOWN⟩ ∧
    (create_epub m enum pOk iOk).error =
      some ⟨"Invalid markdown file " ++ c.markdown, ERROR_INVALID_MARKDOWN⟩ ∧
    (create_epub m enum pOk iOk).entries =
      ⟨"mimetype", ZipMethod.stored⟩ ::
      ⟨"META-INF/container.xml", ZipMethod.deflated 9⟩ ::
      ⟨"OPS/package.opf", ZipMethod.deflated 9⟩ ::
      ⟨"OPS/titlepage.xhtml", ZipMethod.deflated 9⟩ ::
      chapterEntriesFrom 0 pre := by
  have hloop := chaptersLoop_first_fail post hc pre 0 hpre
  refine ⟨by simp [chapter_xml, hc], ?_, ?_⟩
  · unfold create_epub
    rw [hsplit, hloop]
  · unfold create_epub
    rw [hsplit, hloop]
    show (epub_put "mimetype" :: epub_put "META-INF/container.xml" ::
      epub_put "OPS/package.opf" :: epub_put "OPS/titlepage.xhtml" :: []) ++
      chapterEntriesFrom 0 pre = _
    rw [epub_put_of_ne (show ("META-INF/container.xml" : String) ≠ "mimetype"
      by decide)]
    rw [epub_put_of_ne (show ("OPS/package.opf" : String) ≠ "mimetype" by decide)]
    rw [epub_put_of_ne (show ("OPS/titlepage.xhtml" : String) ≠ "mimetype"
      by decide)]
    rfl

/-- A model whose second chapter has invalid markdown. -/
def c2Model : EPubModel :=
  { language := "en"
    metadata := []
    coverImage := ""
    defaultCss := []
    chapters := [⟨"chapter1.md", none⟩, ⟨"bad.md", none⟩]
    images := [] }

/-- Witness for C2: the build of the two-chapter model aborts on the
second chapter and writes only the header and the first chapter. -/
theorem build_fail_fast_witness :
    c2Model.chapters = [⟨"chapter1.md", none⟩] ++ ⟨"bad.md", none⟩ :: [] ∧
    (create_epub c2Model [] (fun n => n != "bad.md") (fun _ => true)).error =
      some ⟨"Invalid markdown file " ++ "bad.md", ERROR_INVALID_MARKDOWN⟩ ∧
    (create_epub c2Model [] (fun n => n != "bad.md") (fun _ => true)).entries =
      ⟨"mimetype", ZipMethod.stored⟩ ::
      ⟨"META-INF/container.xml", ZipMethod.deflated 9⟩ ::
      ⟨"OPS/package.opf", ZipMethod.deflated 9⟩ ::
      ⟨"OPS/titlepage.xhtml", ZipMethod.deflated 9⟩ ::
      chapterEntriesFrom 0 [⟨"chapter1.md", none⟩] :=
  ⟨rfl,
    (build_fail_fast c2Model [] (fun n => n != "bad.md") (fun _ => true)
      [⟨"chapter1.md", none⟩] ⟨"bad.md", none⟩ [] rfl (by decide) (by decide)).2⟩

/-- Claim C5: in every build, the mimetype member is written first and
stored uncompressed, every other member is deflated at maximum level 9,
and a build in which every chapter converts and every image processes
writes exactly the claimed member sequence in order. -/
theorem archive_compression (m : EPubModel) (enum : List String)
    (pOk iOk : String → Bool) :
    (create_epub m enum pOk iOk).entries.head? =
      some ⟨"mimetype", ZipMethod.stored⟩ ∧
    (∀ e ∈ (create_epub m enum pOk iOk).entries.tail,
      e.method = ZipMethod.deflated 9) ∧
    ((∀ c ∈ m.chapters, pOk c.markdown = true) →
      (∀ g ∈ m.images, iOk g = true) →
      (create_epub m enum pOk iOk).entries =
        ⟨"mimetype", ZipMethod.stored⟩ ::
        ⟨"META-INF/container.xml", ZipMethod.deflated 9⟩ ::
        ⟨"OPS/package.opf", ZipMethod.deflated 9⟩ ::
        ⟨"OPS/titlepage.xhtml", ZipMethod.deflated 9⟩ ::
        (chapterEntriesFrom 0 m.chapters ++
          (⟨"OPS/TOC.xhtml", ZipMethod.deflated 9⟩ ::
           ⟨"OPS/toc.ncx", ZipMethod.deflated 9⟩ ::
           (m.images.map (fun g => ⟨"OPS/" ++ g, ZipMethod.deflated 9⟩) ++
            enum.map (fun s => ⟨"OPS/" ++ s, ZipMethod.deflated 9⟩))))) := by
  have hhdr : ∀ e, e ∈ [epub_put "META-INF/container.xml",
      epub_put "OPS/package.opf", epub_put "OPS/titlepage.xhtml"] →
      e.method = ZipMethod.deflated 9 := by
    intro e he
    rcases List.mem_cons.mp he with h | he
    · rw [h]; rfl
    rcases List.mem_cons.mp he with h | he
    · rw [h]; rfl
    rcases List.mem_cons.mp he with h | he
    · rw [h]; rfl
    · cases he
  refine ⟨?_, ?_, ?_⟩
  · unfold create_epub
    rcases h1 : chaptersLoop pOk 0 m.chapters with ⟨ce, err⟩
    rcases err with _ | e <;> try rfl
    rcases h2 : imagesLoop iOk m.images with ⟨ie, err2⟩
    rcases err2 with _ | e2 <;> rfl
  · unfold create_epub
    rcases h1 : chaptersLoop pOk 0 m.chapters with ⟨ce, err⟩
    have hce : ∀ e ∈ ce, e.method = ZipMethod.deflated 9 := by
      intro e he
      exact chaptersLoop_methods m.chapters 0 e (by rw [h1]; exact he)
    rcases err with _ | e
    · rcases h2 : imagesLoop iOk m.images with ⟨ie, err2⟩
      have hie : ∀ e ∈ ie, e.method = ZipMethod.deflated 9 := by
        intro e he
        exact imagesLoop_methods m.images e (by rw [h2]; exact he)
      rcases err2 with _ | e2 <;>
      · intro e he
        simp only [List.tail_cons, List.cons_append, List.nil_append,
          List.append_assoc, List.mem_append, List.mem_cons] at he
        rcases he with h | h | h | h
        · rw [h]; rfl
        · rw [h]; rfl
        · rw [h]; rfl
        first
        | ( rcases h with h | h | h | h | h
            · exact hce e h
            · rw [h]; rfl
            · rw [h]; rfl
            · exact hie e h
            · rcases List.mem_map.mp h with ⟨s, _, rfl⟩
              rw [epub_put_of_ne (ops_ne_mimetype _)] )
        | ( rcases h with h | h | h | h
            · exact hce e h
            · rw [h]; rfl
            · rw [h]; rfl
            · exact hie e h )
    · intro e he
      simp only [List.tail_cons, List.cons_append, List.nil_append,
        List.mem_append, List.mem_cons] at he
      rcases he with h | h | h | h
      · rw [h]; rfl
      · rw [h]; rfl
      · rw [h]; rfl
      · exact hce e h
  · intro hall himgs
    unfold create_epub
    rw [chaptersLoop_all_ok m.chapters 0 hall, imagesLoop_all_ok m.images himgs]
    show (epub_put "mimetype" :: epub_put "META-INF/container.xml" ::
      epub_put "OPS/package.opf" :: epub_put "OPS/titlepage.xhtml" :: []) ++
      chapterEntriesFrom 0 m.chapters ++
      [epub_put "OPS/TOC.xhtml", epub_put "OPS/toc.ncx"] ++
      List.map (fun g => ⟨"OPS/" ++ g, ZipMethod.deflated 9⟩) m.images ++
      List.map (fun s => epub_put ("OPS/" ++ s)) enum = _
    rw [epub_put_of_ne (show ("META-INF/container.xml" : String) ≠ "mimetype"
      by decide)]
    rw [epub_put_of_ne (show ("OPS/package.opf" : String) ≠ "mimetype" by decide)]
    rw [epub_put_of_ne (show ("OPS/titlepage.xhtml" : String) ≠ "mimetype"
      by decide)]
    rw [epub_put_of_ne (show ("OPS/TOC.xhtml" : String) ≠ "mimetype" by decide)]
    rw [epub_put_of_ne (show ("OPS/toc.ncx" : String) ≠ "mimetype" by decide)]
    rw [List.map_congr_left
      (fun s _ => epub_put_of_ne (ops_ne_mimetype s))]
    simp [List.append_assoc, epub_put]

/-- Witness for C5: the fully successful build of the two-chapter model
writes the full member list. -/
theorem archive_compression_witness :
    (∀ c ∈ c2Model.chapters, (fun _ => true : String → Bool) c.markdown = true) ∧
    (create_epub c2Model ["css/x.css"] (fun _ => true) (fun _ => true)).entries =
      ⟨"mimetype", ZipMethod.stored⟩ ::
      ⟨"META-INF/container.xml", ZipMethod.deflated 9⟩ ::
      ⟨"OPS/package.opf", ZipMethod.deflated 9⟩ ::
      ⟨"OPS/titlepage.xhtml", ZipMethod.deflated 9⟩ ::
      (chapterEntriesFrom 0 c2Model.chapters ++
        (⟨"OPS/TOC.xhtml", ZipMethod.deflated 9⟩ ::
         ⟨"OPS/toc.ncx", ZipMethod.deflated 9⟩ ::
         (c2Model.images.map (fun g => ⟨"OPS/" ++ g, ZipMethod.deflated 9⟩) ++
          ["css/x.css"].map (fun s => ⟨"OPS/" ++ s, ZipMethod.deflated 9⟩)))) :=
  ⟨by decide,
    (archive_compression c2Model ["css/x.css"] (fun _ => true) (fun _ => true)).2.2
      (by decide) (by decide)⟩

/-! Claim C8: structural idempotence of two builds. -/

/-- A model with two default stylesheets, whose set can be iterated in
either order. -/
def c8Model : EPubModel :=
  { language := "en"
    metadata := []
    coverImage := ""
    defaultCss := ["css/a.css", "css/b.css"]
    chapters := []
    images := [] }

/-- Counterexample to C8 as stated: with the same description, the same
freshly generated identifier and the same timestamp, two runs whose
stylesheet sets iterate in different (both possible) orders produce
different manifests, so the manifest is not byte-identical across builds
even after ignoring the timestamp and the identifier. -/
theorem build_structure_counterexample :
    stylesValid c8Model ["css/a.css", "css/b.css"] ∧
    stylesValid c8Model ["css/b.css", "css/a.css"] ∧
    (package_opf c8Model "u" "t" ["css/a.css", "css/b.css"]).manifest ≠
      (package_opf c8Model "u" "t" ["css/b.css", "css/a.css"]).manifest := by
  refine ⟨by decide, by decide, by decide⟩

theorem get_image_mimetype_ne_css (g : String) :
    get_image_mimetype g ≠ "text/css" := by
  unfold get_image_mimetype
  simp only []
  split_ifs <;> decide

/-- Whether a manifest item is a stylesheet item. -/
def isCssItem (it : ManifestItem) : Bool :=
  it.mediaType = "text/css"

theorem chapterItemsFrom_no_css (cs : List Chapter) :
    ∀ i, (chapterItemsFrom i cs).filter isCssItem = [] := by
  induction cs with
  | nil => intro i; rfl
  | cons c cs ih =>
    intro i
    simp only [chapterItemsFrom, List.filter_cons]
    rw [if_neg]
    · exact ih (i + 1)
    · exact Bool.false_ne_true

theorem imageItemsFrom_no_css (cover : String) (imgs : List String) :
    ∀ i, (imageItemsFrom cover i imgs).filter isCssItem = [] := by
  induction imgs with
  | nil => intro i; rfl
  | cons g imgs ih =>
    intro i
    simp only [imageItemsFrom, List.filter_cons]
    rw [if_neg]
    · exact ih (i + 1)
    · intro hcontra
      exact get_image_mimetype_ne_css g (by simpa [isCssItem] using hcontra)

theorem cssItemsFrom_all_css (ss : List String) :
    ∀ i, (cssItemsFrom i ss).filter isCssItem = cssItemsFrom i ss := by
  induction ss with
  | nil => intro i; rfl
  | cons s ss ih =>
    intro i
    simp only [cssItemsFrom, List.filter_cons]
    rw [if_pos]
    · rw [ih (i + 1)]
    · rfl

theorem chapterItemsFrom_keep (cs : List Chapter) :
    ∀ i, (chapterItemsFrom i cs).filter (fun it => ¬ isCssItem it = true) =
      chapterItemsFrom i cs := by
  induction cs with
  | nil => intro i; rfl
  | cons c cs ih =>
    intro i
    simp only [chapterItemsFrom, List.filter_cons]
    rw [if_pos]
    · rw [ih (i + 1)]
    · simp [isCssItem]

theorem imageItemsFrom_keep (cover : String) (imgs : List String) :
    ∀ i, (imageItemsFrom cover i imgs).filter (fun it => ¬ isCssItem it = true) =
      imageItemsFrom cover i imgs := by
  induction imgs with
  | nil => intro i; rfl
  | cons g imgs ih =>
    intro i
    simp only [imageItemsFrom, List.filter_cons]
    rw [if_pos]
    · rw [ih (i + 1)]
    · simp only [decide_eq_true_eq, decide_not]
      simp [isCssItem, get_image_mimetype_ne_css g]

theorem cssItemsFrom_drop (ss : List String) :
    ∀ i, (cssItemsFrom i ss).filter (fun it => ¬ isCssItem it = true) = [] := by
  induction ss with
  | nil => intro i; rfl
  | cons s ss ih =>
    intro i
    simp only [cssItemsFrom, List.filter_cons]
    rw [if_neg]
    · exact ih (i + 1)
    · simp [isCssItem]

theorem cssItemsFrom_map_href (ss : List String) :
    ∀ i, (cssItemsFrom i ss).map ManifestItem.href = ss := by
  induction ss with
  | nil => intro i; rfl
  | cons s ss ih =>
    intro i
    simp only [cssItemsFrom, List.map_cons]
    rw [ih (i + 1)]

theorem manifest_filter_css (m : EPubModel) (enum : List String) :
    (create_manifest m enum).filter isCssItem = cssItemsFrom 0 enum := by
  unfold create_manifest
  rw [List.filter_append, List.filter_append, List.filter_append]
  rw [chapterItemsFrom_no_css, imageItemsFrom_no_css, cssItemsFrom_all_css]
  have h3 : ([tocItem, ncxItem, titlepageItem].filter isCssItem) = [] := rfl
  rw [h3]
  simp

theorem manifest_filter_non_css (m : EPubModel) (enum : List String) :
    (create_manifest m enum).filter (fun it => ¬ isCssItem it = true) =
      [tocItem, ncxItem, titlepageItem] ++ chapterItemsFrom 0 m.chapters ++
        imageItemsFrom m.coverImage 0 m.images := by
  unfold create_manifest
  rw [List.filter_append, List.filter_append, List.filter_append]
  rw [chapterItemsFrom_keep, imageItemsFrom_keep, cssItemsFrom_drop]
  have h3 : ([tocItem, ncxItem, titlepageItem].filter
      (fun it => ¬ isCssItem it = true)) = [tocItem, ncxItem, titlepageItem] := rfl
  rw [h3]
  simp

/-- Claim C8 (amended): two builds from the same description, whatever
identifier and timestamp they generate, have identical spine and guide;
their manifests agree exactly on every non-stylesheet item, and their
stylesheet items reference the same set of stylesheets (the hrefs are
permutations of each other), but the stylesheet item order follows the
unspecified set iteration order of each run, so the manifests need not
be byte-identical. -/
theorem build_structure_stable (m : EPubModel) (u1 t1 u2 t2 : String)
    (e1 e2 : List String) (h1 : stylesValid m e1) (h2 : stylesValid m e2) :
    (package_opf m u1 t1 e1).spine = (package_opf m u2 t2 e2).spine ∧
    (package_opf m u1 t1 e1).guide = (package_opf m u2 t2 e2).guide ∧
    (package_opf m u1 t1 e1).manifest.filter (fun it => ¬ isCssItem it = true) =
      (package_opf m u2 t2 e2).manifest.filter (fun it => ¬ isCssItem it = true) ∧
    (((package_opf m u1 t1 e1).manifest.filter isCssItem).map
        ManifestItem.href).Perm
      (((package_opf m u2 t2 e2).manifest.filter isCssItem).map
        ManifestItem.href) := by
  refine ⟨rfl, rfl, ?_, ?_⟩
  · show (create_manifest m e1).filter _ = (create_manifest m e2).filter _
    rw [manifest_filter_non_css, manifest_filter_non_css]
  · show ((create_manifest m e1).filter isCssItem).map ManifestItem.href |>.Perm
      (((create_manifest m e2).filter isCssItem).map ManifestItem.href)
    rw [manifest_filter_css, manifest_filter_css,
      cssItemsFrom_map_href, cssItemsFrom_map_href]
    exact (stylesValid_perm h1).trans (stylesValid_perm h2).symm

/-- Witness for C8 with the two possible iteration orders of the sample
set. -/
theorem build_structure_stable_witness :
    stylesValid c8Model ["css/a.css", "css/b.css"] ∧
    stylesValid c8Model ["css/b.css", "css/a.css"] ∧
    ((package_opf c8Model "u1" "t1" ["css/a.css", "css/b.css"]).spine =
        (package_opf c8Model "u2" "t2" ["css/b.css", "css/a.css"]).spine ∧
      (package_opf c8Model "u1" "t1" ["css/a.css", "css/b.css"]).guide =
        (package_opf c8Model "u2" "t2" ["css/b.css", "css/a.css"]).guide ∧
      (package_opf c8Model "u1" "t1" ["css/a.css", "css/b.css"]).manifest.filter
          (fun it => ¬ isCssItem it = true) =
        (package_opf c8Model "u2" "t2" ["css/b.css", "css/a.css"]).manifest.filter
          (fun it => ¬ isCssItem it = true) ∧
      (((package_opf c8Model "u1" "t1"
            ["css/a.css", "css/b.css"]).manifest.filter isCssItem).map
          ManifestItem.href).Perm
        (((package_opf c8Model "u2" "t2"
            ["css/b.css", "css/a.css"]).manifest.filter isCssItem).map
          ManifestItem.href)) :=
  ⟨by decide, by decide,
    build_structure_stable c8Model "u1" "t1" "u2" "t2"
      ["css/a.css", "css/b.css"] ["css/b.css", "css/a.css"]
      (by decide) (by decide)⟩

end Mark2Epub
